import Mathlib

set_option maxRecDepth 4000

/-!
Verification development for the autonomous web-agent core: a shallow
embedding, in Lean 4, of the observation-fusion row filter
(ObservationAnalyzer.analyze), the field indexer and plan validator
(ConcretePlanner), the repair loop (ConcretePlanner.run_repair_loop),
the action compiler (build_action_code) and the pre-execution safety
transformation (inject_final_hover), together with theorems settling the
frozen specification claims C1 through C10.

Conventions: Python strings are Lean `String`s; Python `None`-able values
are `Option`s; pandas float columns are `ℚ`; Python substring tests
(`x in y`) are `substrB`; machine behaviour that is irrelevant to every
claim (file IO, prompt rendering, logging) is not embedded.
-/

/-- Python `needle in hay` substring test on strings. -/
def substrB (needle hay : String) : Bool :=
  decide (needle.toList <:+: hay.toList)

/-- Python `str.lower()` (kernel-computable, character by character). -/
def pyLower (s : String) : String := String.mk (s.toList.map Char.toLower)

/-- Python `str.upper()`. -/
def pyUpper (s : String) : String := String.mk (s.toList.map Char.toUpper)

/-- Python `str.strip()`: drop leading and trailing whitespace. -/
def pyStrip (s : String) : String :=
  String.mk (((s.toList.dropWhile Char.isWhitespace).reverse.dropWhile Char.isWhitespace).reverse)

/-- Left-to-right, non-overlapping replacement of a non-empty pattern,
with enough fuel to scan the whole input. -/
def replaceGo (pat rep : List Char) : Nat → List Char → List Char
  | 0, l => l
  | _ + 1, [] => []
  | fuel + 1, c :: rest =>
    if pat.isPrefixOf (c :: rest) then rep ++ replaceGo pat rep fuel ((c :: rest).drop pat.length)
    else c :: replaceGo pat rep fuel rest

/-- Python `str.replace(pat, rep)` for the non-empty patterns the
planner uses ("_", "extractValue"). -/
def pyReplace (s pat rep : String) : String :=
  if pat.toList = [] then s
  else String.mk (replaceGo pat.toList rep.toList s.toList.length s.toList)

/-- pandas `Series.str.contains(needle, case=False)` on one cell
(the keys used by the planner contain no regex metacharacters, so the
regex engine degenerates to plain substring search). -/
def containsCI (hay needle : String) : Bool :=
  substrB (pyLower needle) (pyLower hay)

/- ============================================================
   ObservationAnalyzer.analyze — row-inclusion logic (claim C2)
   ============================================================ -/

/-- One fused element record (`self.unified_map[bid]`): the fields that
feed the `analyze` inclusion decision, plus the columns other claims
read.  Bounding box is `none` when the visual-property side table has no
box for this identifier. -/
structure Elem where
  bid : String
  tag : String
  role : String
  vis : ℚ
  clickable : Bool
  bbox : Option (ℚ × ℚ × ℚ × ℚ)
  value : String
  innerT : String
  axName : String
deriving DecidableEq

/-- The interactive tag set of `analyze`:
`data['Tag'] in ['INPUT', 'SELECT', 'TEXTAREA', 'BUTTON', 'A']`. -/
def interactiveTags : List String := ["INPUT", "SELECT", "TEXTAREA", "BUTTON", "A"]

/-- Source `has_physical_size = bbox and len(bbox) >= 4 and bbox[2] >= 1 and bbox[3] >= 1`. -/
def hasPhysicalSize : Option (ℚ × ℚ × ℚ × ℚ) → Bool
  | none => false
  | some (_, _, w, h) => decide (1 ≤ w) && decide (1 ≤ h)

/-- Source `is_interactive = data['Tag'] in [...] or data['Clickable']`. -/
def elemIsInteractive (e : Elem) : Bool :=
  decide (e.tag ∈ interactiveTags) || e.clickable

/-- The two `continue` filters of `ObservationAnalyzer.analyze`: keep a
record unless (no physical size and not focused) or (invisible, not
focused and not interactive). -/
def keepElem (focusedBid : String) (e : Elem) : Bool :=
  if hasPhysicalSize e.bbox = false ∧ e.bid ≠ focusedBid then false
  else if e.vis = 0 ∧ e.bid ≠ focusedBid ∧ elemIsInteractive e = false then false
  else true

/-- The elements that survive the `analyze` filters, in input order. -/
def analyzeKept (focusedBid : String) (elems : List Elem) : List Elem :=
  elems.filter (keepElem focusedBid)

/-- The columns of the emitted unified-table row that the claims read
(the remaining columns of `analyze` are derived enrichments that do not
affect row inclusion). -/
structure AnalyzedRow where
  BID : String
  Role : String
  Tag : String
  Value : String
  Focused : String
deriving DecidableEq

/-- Projection of one kept element to its table row. -/
def toRow (focusedBid : String) (e : Elem) : AnalyzedRow :=
  { BID := e.bid
    Role := e.role
    Tag := e.tag
    Value := e.value
    Focused := if e.bid = focusedBid then "YES" else "no" }

/-- The unified table produced by `analyze`: one row per kept element. -/
def analyzeTable (focusedBid : String) (elems : List Elem) : List AnalyzedRow :=
  (analyzeKept focusedBid elems).map (toRow focusedBid)

/- ============================================================
   ConcretePlanner — data model shared by C3, C5, C6, C7, C8, C10
   ============================================================ -/

/-- One row of the planner's observation table `raw_df` (the columns the
planner reads; pandas float column `Vis` is a rational). -/
structure Row where
  BID : String
  Role : String
  Tag : String
  Label_L : String
  Label_A : String
  Label_AX : String
  Label_P : String
  InnerT : String
  Value : String
  Status : String
  Class : String
  Vis : ℚ
deriving DecidableEq

/-- A resolved field binding written into the bid index:
`{"bid", "role", "label", "is_visible"}` (the `usage_hint` of the
intent-driven synthetic keys plays no part in any claim). -/
structure Binding where
  bid : String
  role : String
  label : String
  is_visible : Bool
deriving DecidableEq

/-- A bid-index entry: either a resolved binding dict or the string
sentinel `"NOT_FOUND"`. -/
inductive IndexEntry where
  | notFound
  | resolved (b : Binding)
deriving DecidableEq

/-- The field index, a JSON object in insertion order. -/
abbrev BidIndex := List (String × IndexEntry)

/- ============================================================
   ConcretePlanner.build_bid_index — field scoring (claim C8)
   ============================================================ -/

/-- Source `INPUT_ROLES` of `score_row`. -/
def inputRoles : List String :=
  ["input", "textarea", "select", "combobox", "checkbox", "radio", "searchbox", "textbox"]

/-- Source `INPUT_TAGS` of `score_row`. -/
def inputTags : List String := ["input", "select", "textarea", "button"]

/-- Source `search_cols = ['Label_L', 'Label_A', 'Label_AX', 'InnerT', 'Label_P']`. -/
def searchColsOf (r : Row) : List String :=
  [r.Label_L, r.Label_A, r.Label_AX, r.InnerT, r.Label_P]

/-- Source `norm_key = field_key.lower().replace("_", " ")`. -/
def normKey (fieldKey : String) : String :=
  pyReplace (pyLower fieldKey) "_" " "

/-- The candidate mask: some search column contains the normalized key,
case-insensitively. -/
def rowMatchesField (nk : String) (r : Row) : Bool :=
  (searchColsOf r).any (fun c => containsCI c nk)

/-- Source `score_row`: +150 interactive role/tag, −20 passive label role/tag,
+50 visible, +20 exact primary-label match. -/
def scoreRow (nk : String) (r : Row) : Int :=
  let role := pyStrip (pyLower r.Role)
  let tag := pyStrip (pyLower r.Tag)
  (if role ∈ inputRoles ∨ tag ∈ inputTags then 150 else 0) +
    (if role ∈ ["none", "label", "text"] ∨ tag = "label" then -20 else 0) +
    (if 0 < r.Vis then 50 else 0) +
    (if nk = pyLower r.Label_L then 20 else 0)

/-- Source `matches.sort_values('score', ascending=False).iloc[0]`: a row of
maximal score (first occurrence wins ties). -/
def selectBest (nk : String) : List Row → Option Row
  | [] => none
  | r :: rs => some (rs.foldl (fun b r2 => if scoreRow nk b < scoreRow nk r2 then r2 else b) r)

/-- Threshold-and-emit step of `build_bid_index` part A, on the already
filtered candidate rows: take the best, accept only at score ≥ 50, else
`"NOT_FOUND"`. -/
def bindFieldAux (nk : String) (ms : List Row) : IndexEntry :=
  match selectBest nk ms with
  | none => IndexEntry.notFound
  | some best =>
    if 50 ≤ scoreRow nk best then
      IndexEntry.resolved
        { bid := best.BID
          role := best.Role
          label := if best.Label_L ≠ "" then best.Label_L else best.InnerT
          is_visible := decide (0 < best.Vis) }
    else IndexEntry.notFound

/-- One field of part A of `build_bid_index`: filter candidates by the
search-column mask, then score and select. -/
def bindField (fieldKey : String) (rawDf : List Row) : IndexEntry :=
  bindFieldAux (normKey fieldKey) (rawDf.filter (rowMatchesField (normKey fieldKey)))

/-- Part A of `build_bid_index` over every specified field (parts B and
C add intent-driven synthetic keys, outside every claim). -/
def buildBidIndexFields (fields : List String) (rawDf : List Row) : BidIndex :=
  fields.map (fun f => (f, bindField f rawDf))

/-- Scenario A of the spec: a passive visible text label reading
"Category". -/
def c8LabelRow : Row :=
  { BID := "L1", Role := "text", Tag := "LABEL", Label_L := "", Label_A := "",
    Label_AX := "", Label_P := "", InnerT := "Category", Value := "",
    Status := "", Class := "", Vis := 1 }

/-- Scenario A of the spec: a visible interactive select whose primary
label matches the field "Category". -/
def c8SelectRow : Row :=
  { BID := "S1", Role := "combobox", Tag := "SELECT", Label_L := "Category",
    Label_A := "", Label_AX := "", Label_P := "", InnerT := "", Value := "",
    Status := "", Class := "", Vis := 1 }

/-- A concrete non-focused, non-interactive element with a zero-width
bounding box, used to witness claim C2. -/
def c2exElem : Elem :=
  { bid := "b7"
    tag := "DIV"
    role := "generic"
    vis := 1
    clickable := false
    bbox := some (10, 20, 0, 15)
    value := ""
    innerT := "stale text"
    axName := "" }

/- ============================================================
   ConcretePlanner.refine_bid_index_with_llm (claims C7, C10)
   ============================================================ -/

/-- The remediation oracle's parsed response: a JSON object (possibly
empty), or anything else (`None`, a list, a scalar — all treated as
malformed by the `isinstance(data, dict)` check). -/
inductive OracleResp where
  | malformed
  | dict (entries : List (String × IndexEntry))
deriving DecidableEq

/-- The merge loop `for k, v in data.items(): if k in updated: updated[k] = v`
— every original key takes the oracle's value when one is offered, keys
the oracle does not mention keep their entry, oracle-only keys are never
inserted. -/
def mergeIndex (idx : BidIndex) (entries : List (String × IndexEntry)) : BidIndex :=
  idx.map (fun kv =>
    match entries.lookup kv.1 with
    | some v => (kv.1, v)
    | none => kv)

/-- The response handling of `refine_bid_index_with_llm`:
`if data and isinstance(data, dict): ... return updated` else
`return incomplete_index` (an empty dict is falsy and also leaves the
index unchanged). -/
def refineMerge (idx : BidIndex) (resp : OracleResp) : BidIndex :=
  match resp with
  | OracleResp.malformed => idx
  | OracleResp.dict entries => if entries = [] then idx else mergeIndex idx entries

/-- The double-quote character. -/
def dquote : Char := Char.ofNat 34

/-- The backslash character. -/
def bslash : Char := Char.ofNat 92

/-- Opening curly bracket. -/
def lbrace : Char := Char.ofNat 123

/-- Closing curly bracket. -/
def rbrace : Char := Char.ofNat 125

/-- Source `json.dumps` escaping of one character (quote and backslash; the
control and non-ASCII escapes never arise in the identifiers, roles and
labels the planner serializes and are elided). -/
def jsonEscChar (c : Char) : List Char :=
  if c = dquote ∨ c = bslash then [bslash, c] else [c]

/-- A JSON string literal, as characters. -/
def jsonStr (s : String) : List Char :=
  dquote :: (s.toList.map jsonEscChar).flatten ++ [dquote]

/-- A JSON boolean literal. -/
def jsonBool (b : Bool) : List Char :=
  if b then "true".toList else "false".toList

/-- Source `json.dumps` separator between key and value. -/
def colonSp : List Char := ": ".toList

/-- Source `json.dumps` separator between members. -/
def commaSp : List Char := ", ".toList

/-- Serialization of one index entry value: the sentinel string, or the
binding dict in insertion order. -/
def jsonEntryVal : IndexEntry → List Char
  | IndexEntry.notFound => jsonStr "NOT_FOUND"
  | IndexEntry.resolved b =>
    lbrace ::
      (jsonStr "bid" ++ colonSp ++ jsonStr b.bid ++ commaSp ++
        jsonStr "role" ++ colonSp ++ jsonStr b.role ++ commaSp ++
        jsonStr "label" ++ colonSp ++ jsonStr b.label ++ commaSp ++
        jsonStr "is_visible" ++ colonSp ++ jsonBool b.is_visible) ++ [rbrace]

/-- Serialization of one `key: value` member. -/
def jsonPair (kv : String × IndexEntry) : List Char :=
  jsonStr kv.1 ++ colonSp ++ jsonEntryVal kv.2

/-- Separator-joined concatenation. -/
def joinSep (sep : List Char) : List (List Char) → List Char
  | [] => []
  | [x] => x
  | x :: y :: ys => x ++ sep ++ joinSep sep (y :: ys)

/-- Source `json.dumps(incomplete_index)` with default separators. -/
def jsonDumpsIndex (idx : BidIndex) : List Char :=
  lbrace :: joinSep commaSp (idx.map jsonPair) ++ [rbrace]

/-- The scanned token of the remediation gate. -/
def notFoundChars : List Char := "NOT_FOUND".toList

/-- Source test `"NOT_FOUND" not in json.dumps(incomplete_index)` (negated). -/
def hasNotFoundToken (idx : BidIndex) : Bool :=
  decide (notFoundChars <:+: jsonDumpsIndex idx)

/-- Source `refine_bid_index_with_llm` as a function of the index and the
oracle's response; the boolean records whether the oracle request was
issued at all. -/
def refineBidIndexWithLLM (idx : BidIndex) (resp : OracleResp) : BidIndex × Bool :=
  if hasNotFoundToken idx = false then (idx, false)
  else (refineMerge idx resp, true)

/-- A resolved binding whose label text merely mentions the sentinel,
used to witness claim C10. -/
def c10exBinding : Binding :=
  { bid := "17", role := "textbox", label := "NOT_FOUND items", is_visible := true }

/- ============================================================
   ConcretePlanner.validate_plan (claims C3, C5, C6)
   ============================================================ -/

/-- An oracle action descriptor: the `action_type` plus every optional
key the validator and the compiler read (`none` models an absent key). -/
structure ActionDesc where
  action_type : String
  bid : Option String := none
  logic_ref : Option String := none
  value : Option String := none
  options : Option String := none
  option : Option String := none
  message : Option String := none
  instruction : Option String := none
  dx : Option Int := none
  dy : Option Int := none
  direction : Option String := none
deriving DecidableEq

/-- One concrete step: a step id and its ordered action list. -/
structure Step where
  step_id : String
  actions : List ActionDesc
deriving DecidableEq

/-- Source `VALID_ACTIONS` of `validate_plan`. -/
def VALID_ACTIONS : List String :=
  ["fill", "click", "focus", "select_option", "scroll", "hover", "extractLLM", "send_msg_to_user"]

/-- Source `POSITIVE_INDICATORS` of `validate_plan`. -/
def POSITIVE_INDICATORS : List String :=
  ["YES", "TRUE", "ON", "CHECKED", "1", "SELECTED",
    "ACTIVE", "IS-CHECKED", "CHECKBOX-ACTIVE", "RADIO-ACTIVE", "CHECKED-TRUE"]

/-- The recognized empty-state placeholders of the empty-target audit. -/
def nonePlaceholders : List String := ["none", "-- none --", "null"]

/-- Source `raw_df[raw_df['BID'].astype(str) == bid]` followed by `.iloc[0]`:
the first row carrying the identifier. -/
def findRowByBid (rawDf : List Row) (bid : String) : Option Row :=
  rawDf.find? (fun r => r.BID == bid)

/-- The checked-state heuristic of the boolean-target audit: a positive
indicator inside the upper-cased value or status, or "CHECKED" inside
the upper-cased class attribute. -/
def currentChecked (cand : Row) : Bool :=
  let valU := pyStrip (pyUpper cand.Value)
  let statU := pyStrip (pyUpper cand.Status)
  let clsU := pyStrip (pyUpper cand.Class)
  POSITIVE_INDICATORS.any (fun ind => substrB ind valU) ||
    POSITIVE_INDICATORS.any (fun ind => substrB ind statU) ||
    substrB "CHECKED" clsU

/-- Pass 1 of `validate_plan` for one specified field: does the live
element already satisfy the target (empty-target, boolean-target and
plain-text branches)? -/
def fieldCompleted (bidIndex : BidIndex) (rawDf : List Row)
    (fieldLabel target : String) : Bool :=
  let tv := pyStrip target
  match bidIndex.lookup fieldLabel with
  | some (IndexEntry.resolved e) =>
    match findRowByBid rawDf e.bid with
    | some cand =>
      let actualVal := pyStrip cand.Value
      let actualInner := pyStrip cand.InnerT
      if tv = "" then
        decide (actualVal = "") || decide (pyLower actualVal ∈ nonePlaceholders)
      else if pyLower tv ∈ ["true", "false"] then
        currentChecked cand == decide (pyLower tv = "true")
      else
        decide (tv = actualVal) || decide (tv = actualInner)
    | none => false
  | _ => false

/-- Source `completed_logic_refs`, in specification order. -/
def completedLogicRefs (fieldsSpec : List (String × String)) (bidIndex : BidIndex)
    (rawDf : List Row) : List String :=
  (fieldsSpec.filter (fun ft => fieldCompleted bidIndex rawDf ft.1 ft.2)).map Prod.fst

/-- Source `planned_logic_refs`: every truthy `logic_ref` of a planned action. -/
def plannedLogicRefs (steps : List Step) : List String :=
  (steps.flatMap (fun s => s.actions)).filterMap (fun a =>
    match a.logic_ref with
    | some l => if l = "" then none else some l
    | none => none)

/-- Source `missing_fields = (required_fields - completed_logic_refs) - planned_logic_refs`
(as a list in specification order; the Python sets carry no order). -/
def missingFields (fieldsSpec : List (String × String)) (bidIndex : BidIndex)
    (rawDf : List Row) (steps : List Step) : List String :=
  (fieldsSpec.map Prod.fst).filter (fun f =>
    decide (f ∉ completedLogicRefs fieldsSpec bidIndex rawDf) &&
    decide (f ∉ plannedLogicRefs steps))

/-- Source `truly_missing`: the missing fields whose index entry is a truthy
non-"NOT_FOUND" binding. -/
def trulyMissing (fieldsSpec : List (String × String)) (bidIndex : BidIndex)
    (rawDf : List Row) (steps : List Step) : List String :=
  (missingFields fieldsSpec bidIndex rawDf steps).filter (fun f =>
    match bidIndex.lookup f with
    | some (IndexEntry.resolved _) => true
    | _ => false)

/-- Does the plan contain a `send_msg_to_user` or `extractLLM` action
anywhere (the guard attached to the missing-fields report)? -/
def hasMsgOrExtract (steps : List Step) : Bool :=
  steps.any (fun s => s.actions.any (fun a =>
    a.action_type == "send_msg_to_user" || a.action_type == "extractLLM"))

/-- A validation error, by kind; the Japanese diagnostic text of the
source is rendering detail and is abstracted into the constructor's
payload. -/
inductive VErr where
  | unknownAction (stepId aType : String)
  | missingInstruction (stepId : String)
  | missingScrollArgs (stepId : String)
  | labelRoleWarning (stepId bid : String) (suggestion : Option String)
  | redundantClick (stepId logicRef : String)
  | missingFieldsErr (fields : List String)
deriving DecidableEq

/-- Source `bid_index.get(logic_ref, {}).get('bid')` for the label-role
warning's hint, in the cases where it returns: an absent or `None`
logic reference falls back to the empty dict, a resolved binding yields
its identifier.  When the entry is the string sentinel "NOT_FOUND" the
source instead raises AttributeError (a string has no `.get`), aborting
`validate_plan`; that path never produces a hint and is modelled by
`validatePlanCrashes` / `validatePlanE` below — the `notFound` arm here
is unreachable in any completed validation. -/
def suggestionFor (bidIndex : BidIndex) (logicRef : Option String) : Option String :=
  match logicRef with
  | some l =>
    match bidIndex.lookup l with
    | some (IndexEntry.resolved e) => some e.bid
    | _ => none
  | none => none

/-- The label-role audit of `validate_plan`: a concrete target row whose
role/tag says passive label and whose tag is not interactive earns a
re-investigation warning carrying the index's suggested identifier. -/
def roleAudit (bidIndex : BidIndex) (rawDf : List Row)
    (stepId : String) (a : ActionDesc) : List VErr :=
  match findRowByBid rawDf (a.bid.getD "") with
  | some r =>
    if (pyLower r.Role ∈ ["none", "label"] ∨ pyUpper r.Tag = "LABEL") ∧
        pyUpper r.Tag ∉ ["INPUT", "TEXTAREA", "SELECT", "A", "BUTTON"] then
      [VErr.labelRoleWarning stepId (a.bid.getD "") (suggestionFor bidIndex a.logic_ref)]
    else []
  | none => []

/-- The redundant-click audit of `validate_plan`: a click whose logic
reference names an already-satisfied boolean field is flagged for
removal. -/
def clickAudit (fieldsSpec : List (String × String)) (completed : List String)
    (stepId : String) (a : ActionDesc) : List VErr :=
  if a.action_type = "click" then
    match a.logic_ref with
    | some l =>
      if l ∈ completed ∧ pyLower ((fieldsSpec.lookup l).getD "") ∈ ["true", "false"] then
        [VErr.redundantClick stepId l]
      else []
    | none => []
  else []

/-- Pass 4 of `validate_plan` for one action: the unknown-action gate,
the per-type argument checks, then the label-role and redundant-click
audits, in source order. -/
def auditAction (bidIndex : BidIndex) (rawDf : List Row)
    (fieldsSpec : List (String × String)) (completed : List String)
    (stepId : String) (a : ActionDesc) : List VErr :=
  if a.action_type ∉ VALID_ACTIONS then
    [VErr.unknownAction stepId a.action_type]
  else if a.action_type = "extractLLM" then
    if a.instruction.getD "" = "" then [VErr.missingInstruction stepId] else []
  else if a.action_type = "send_msg_to_user" then []
  else if a.action_type = "scroll" then
    if a.dx = none ∧ a.dy = none ∧ a.direction = none then
      [VErr.missingScrollArgs stepId]
    else []
  else
    roleAudit bidIndex rawDf stepId a ++ clickAudit fieldsSpec completed stepId a

/-- Pass 4 of `validate_plan` over one step. -/
def auditStep (bidIndex : BidIndex) (rawDf : List Row)
    (fieldsSpec : List (String × String)) (completed : List String)
    (s : Step) : List VErr :=
  s.actions.flatMap (auditAction bidIndex rawDf fieldsSpec completed s.step_id)

/-- Source `validate_plan`: the missing-fields report (guarded by the presence
of a notify/extract action), then the per-step action audits. -/
def validatePlan (steps : List Step) (fieldsSpec : List (String × String))
    (bidIndex : BidIndex) (rawDf : List Row) : List VErr :=
  let completed := completedLogicRefs fieldsSpec bidIndex rawDf
  let tm := trulyMissing fieldsSpec bidIndex rawDf steps
  (if tm ≠ [] ∧ hasMsgOrExtract steps = false then [VErr.missingFieldsErr tm] else []) ++
    steps.flatMap (auditStep bidIndex rawDf fieldsSpec completed)

/-- The action-type vocabulary the claim (and the spec's interface
section) declares recognized. -/
def claimedRecognizedActions : List String :=
  ["fill", "click", "focus", "hover", "dblclick", "select_option", "scroll",
    "extract", "notify-user"]

/-- A one-step plan whose only action is a `dblclick` (claim C3's
counterexample input). -/
def c3exPlan : List Step :=
  [{ step_id := "step_1", actions := [{ action_type := "dblclick", bid := some "42" }] }]

/-- Claim C5's counterexample: one specified field bound to a live row
that does not satisfy it. -/
def c5Binding : Binding :=
  { bid := "7", role := "textbox", label := "A", is_visible := true }

/-- The live row behind `c5Binding`, still empty. -/
def c5Row : Row :=
  { BID := "7", Role := "textbox", Tag := "INPUT", Label_L := "A", Label_A := "",
    Label_AX := "", Label_P := "", InnerT := "", Value := "", Status := "",
    Class := "", Vis := 1 }

/-- Claim C5's counterexample specification. -/
def c5Spec : List (String × String) := [("A", "X")]

/-- Claim C5's counterexample index. -/
def c5Index : BidIndex := [("A", IndexEntry.resolved c5Binding)]

/-- A plan consisting of a single notify-user action and no field
work. -/
def c5PlanMsg : List Step :=
  [{ step_id := "step_1", actions := [{ action_type := "send_msg_to_user", message := some "done" }] }]

/-- Scenario C's specification: field A targets "X", field B targets the
empty string. -/
def c6Spec : List (String × String) := [("A", "X"), ("B", "")]

/-- Scenario C's index: both fields resolved. -/
def c6Index : BidIndex :=
  [("A", IndexEntry.resolved { bid := "1", role := "textbox", label := "A", is_visible := true }),
    ("B", IndexEntry.resolved { bid := "2", role := "textbox", label := "B", is_visible := true })]

/-- Scenario C's live rows: A already carries "X", B is empty. -/
def c6Rows : List Row :=
  [{ BID := "1", Role := "textbox", Tag := "INPUT", Label_L := "A", Label_A := "",
      Label_AX := "", Label_P := "", InnerT := "", Value := "X", Status := "",
      Class := "", Vis := 1 },
    { BID := "2", Role := "textbox", Tag := "INPUT", Label_L := "B", Label_A := "",
      Label_AX := "", Label_P := "", InnerT := "", Value := "", Status := "",
      Class := "", Vis := 1 }]

/- ============================================================
   build_action_code — the action compiler (claim C4)
   ============================================================ -/

/-- A compiled executable command, structurally; the source renders
these as BrowserGym code strings, and constructor plus arguments mirror
the rendered callee and its arguments. -/
inductive Cmd where
  | empty
  | selectOption (bid : Option String) (options : Option String)
  | sendMsg (msg : String)
  | clickCmd (bid : Option String)
  | fillCmd (bid : Option String) (value : String)
  | scrollCmd (dx dy : Int)
  | simpleCmd (aType : String) (bid : String)
  | valueCmd (aType : String) (bid : String) (value : String)
  | noArg (aType : String)
deriving DecidableEq

/-- Source `bind_value`: substitute the "extractValue" placeholder with the
last extracted value when one is present (and truthy). -/
def bindValue (lastExtracted : Option String) (v : String) : String :=
  match lastExtracted with
  | some l => if l ≠ "" ∧ substrB "extractValue" v then pyReplace v "extractValue" l else v
  | none => v

/-- Python `a or b or ...` over optional strings: the first present and
non-empty value. -/
def firstTruthy : List (Option String) → Option String
  | [] => none
  | some s :: rest => if s = "" then firstTruthy rest else some s
  | none :: rest => firstTruthy rest

/-- Source `build_action_code`: placeholder binding plus the fixed remediation
rules — extract compiles to nothing, select uses the populated payload
key, a boolean-looking fill value compiles to a click, scroll resolves
offsets or a named direction, everything else takes the identifier and
an optional value. -/
def buildActionCode (a : ActionDesc) (lastExtracted : Option String) : Cmd :=
  if a.action_type = "extractLLM" then Cmd.empty
  else if a.action_type = "select_option" then
    Cmd.selectOption a.bid
      (Option.map (bindValue lastExtracted) (firstTruthy [a.options, a.option, a.value]))
  else if a.action_type = "send_msg_to_user" then
    Cmd.sendMsg (bindValue lastExtracted ((firstTruthy [a.message, a.value]).getD "Done."))
  else if a.action_type = "fill" then
    if pyLower (pyStrip (bindValue lastExtracted (a.value.getD ""))) ∈ ["true", "false"] then
      Cmd.clickCmd a.bid
    else Cmd.fillCmd a.bid (bindValue lastExtracted (a.value.getD ""))
  else if a.action_type = "scroll" then
    Cmd.scrollCmd (a.dx.getD 0)
      (if a.dy.getD 0 = 0 then
        if a.direction.getD "down" = "down" then 500
        else if a.direction.getD "down" = "up" then -500
        else 0
      else a.dy.getD 0)
  else
    match a.bid with
    | some b =>
      if b = "" then Cmd.noArg a.action_type
      else if a.action_type ∈ ["click", "hover", "dblclick", "focus"] then
        Cmd.simpleCmd a.action_type b
      else
        match a.value with
        | some v => Cmd.valueCmd a.action_type b (bindValue lastExtracted v)
        | none => Cmd.simpleCmd a.action_type b
    | none => Cmd.noArg a.action_type

/- ============================================================
   The validate_plan crash path (ConcretePlanner.py line 570)
   ============================================================ -/

/-- Does auditing this action reach the label-role branch while its
`logic_ref` is indexed as the string sentinel?  There the source
evaluates `bid_index.get(logic_ref, {}).get('bid')` on the string
"NOT_FOUND", which raises AttributeError and aborts `validate_plan`
(and, uncaught, `run_repair_loop`).  The guards mirror the `continue`
cascade of the audit loop: unknown, extract, notify and scroll actions
never reach the label-role branch. -/
def actionCrashes (bidIndex : BidIndex) (rawDf : List Row) (a : ActionDesc) : Bool :=
  if a.action_type ∉ VALID_ACTIONS then false
  else if a.action_type = "extractLLM" then false
  else if a.action_type = "send_msg_to_user" then false
  else if a.action_type = "scroll" then false
  else
    match findRowByBid rawDf (a.bid.getD "") with
    | some r =>
      if (pyLower r.Role ∈ ["none", "label"] ∨ pyUpper r.Tag = "LABEL") ∧
          pyUpper r.Tag ∉ ["INPUT", "TEXTAREA", "SELECT", "A", "BUTTON"] then
        match a.logic_ref with
        | some l =>
          match bidIndex.lookup l with
          | some IndexEntry.notFound => true
          | _ => false
        | none => false
      else false
    | none => false

/-- Does `validate_plan` raise on this input?  The AttributeError fires
at the first crashing action; every error accumulated before it is
discarded with the raise, so the observable outcome depends only on
whether some audited action crashes. -/
def validatePlanCrashes (steps : List Step) (bidIndex : BidIndex) (rawDf : List Row) : Bool :=
  steps.any (fun s => s.actions.any (actionCrashes bidIndex rawDf))

/-- Source `validate_plan` as its caller observes it: `none` when the
line-570 AttributeError propagates, otherwise the full error list (on
which `validatePlan`, the completed-run model, is exact). -/
def validatePlanE (steps : List Step) (fieldsSpec : List (String × String))
    (bidIndex : BidIndex) (rawDf : List Row) : Option (List VErr) :=
  if validatePlanCrashes steps bidIndex rawDf = true then none
  else some (validatePlan steps fieldsSpec bidIndex rawDf)

/-- Claim C9's counterexample index: the planned logic reference is
indexed as unresolved. -/
def c9CrashIndex : BidIndex := [("F", IndexEntry.notFound)]

/-- Claim C9's counterexample row: a pure label row behind bid 9. -/
def c9CrashRow : Row :=
  { BID := "9", Role := "generic", Tag := "LABEL", Label_L := "F", Label_A := "",
    Label_AX := "", Label_P := "", InnerT := "F", Value := "", Status := "",
    Class := "", Vis := 1 }

/-- Claim C9's counterexample plan: a click on the label row tagged with
the unresolved logic reference — auditing it raises at line 570. -/
def c9CrashPlan : List Step :=
  [{ step_id := "s1", actions :=
      [{ action_type := "click", bid := some "9", logic_ref := some "F" }] }]

/- ============================================================
   ConcretePlanner.run_repair_loop (claim C9)
   ============================================================ -/

/-- One oracle generation/refinement outcome, after the connector's
internal retries: parsed concrete steps and thought, or a terminal
generation error. -/
inductive GenResp where
  | ok (steps : List Step) (thought : String)
  | fail (err : String)
deriving DecidableEq

/-- The dict returned by `run_repair_loop`, by shape: a generation error
carries no steps; an accepted plan carries the attempt count and no
error list; an exhausted budget carries the final steps together with
their outstanding validation errors. -/
inductive RepairResult where
  | genError (err : String)
  | accepted (steps : List Step) (thought : String) (attempts : Nat)
  | exhausted (steps : List Step) (thought : String) (errors : List VErr)
deriving DecidableEq

/-- The `for i in range(max_retries)` body of `run_repair_loop`:
validate, accept on zero errors with the attempt count, break on the
last allowed attempt returning the plan with its errors, otherwise ask
the oracle (`resp (i+1)`) for a refinement and continue.  `none` models
the two ways the source raises instead of returning: the propagated
line-570 AttributeError of `validate_plan`, and the `range(0)` case
(fuel exhausted), where the source crashes on an unbound
`validation_errors`. -/
def repairLoopAux (fieldsSpec : List (String × String)) (bidIndex : BidIndex)
    (rawDf : List Row) (resp : Nat → GenResp) (maxRetries : Nat) :
    Nat → Nat → List Step → String → Option RepairResult
  | 0, _, _, _ => none
  | fuel + 1, i, steps, thought =>
    match validatePlanE steps fieldsSpec bidIndex rawDf with
    | none => none
    | some errs =>
      if errs = [] then
        some (RepairResult.accepted steps thought (i + 1))
      else if i = maxRetries - 1 then
        some (RepairResult.exhausted steps thought errs)
      else
        match resp (i + 1) with
        | GenResp.fail e => some (RepairResult.genError e)
        | GenResp.ok s t => repairLoopAux fieldsSpec bidIndex rawDf resp maxRetries fuel (i + 1) s t

/-- Source `run_repair_loop`: initial generation (`resp 0`), then the repair
loop over the retry budget. -/
def runRepairLoop (fieldsSpec : List (String × String)) (bidIndex : BidIndex)
    (rawDf : List Row) (resp : Nat → GenResp) (maxRetries : Nat) : Option RepairResult :=
  match resp 0 with
  | GenResp.fail e => some (RepairResult.genError e)
  | GenResp.ok steps thought =>
    repairLoopAux fieldsSpec bidIndex rawDf resp maxRetries maxRetries 0 steps thought

/- ============================================================
   inject_final_hover — pre-execution safety insertion (claim C1)
   ============================================================ -/

/-- The synthetic focus action inserted before the final click. -/
def safetyFocus (targetBid : Option String) : ActionDesc :=
  { action_type := "focus", bid := targetBid,
    logic_ref := some "Safety Focus-Out before Final Click" }

/-- The effective duplicate-suppression test of the source: the second
assignment to `has_hover` overwrites the earlier same-target-hover check
(dead code) and tests only whether the action before the final click is
itself a click, on any target. -/
def prevIsClick (acts : List ActionDesc) : Bool :=
  match acts.dropLast.getLast? with
  | some p => p.action_type == "click"
  | none => false

/-- Source `inject_final_hover`: when the final step's last action is a click
and the effective suppression test fails, insert a synthetic focus on
that click's target immediately before it; otherwise return the plan
unchanged. -/
def injectFinalHover (steps : List Step) : List Step :=
  match steps.getLast? with
  | none => steps
  | some lastStep =>
    match lastStep.actions.getLast? with
    | none => steps
    | some lastA =>
      if lastA.action_type = "click" then
        if prevIsClick lastStep.actions then steps
        else
          steps.dropLast ++
            [{ lastStep with actions :=
                lastStep.actions.dropLast ++ [safetyFocus lastA.bid, lastA] }]
      else steps

/-- The suppression test as the claim (and the spec's §4.5 sentence)
words it: a preceding click on the same target. Stated only to be
compared against the source's behaviour. -/
def prevIsClickSameTarget (acts : List ActionDesc) (target : Option String) : Bool :=
  match acts.dropLast.getLast? with
  | some p => p.action_type == "click" && p.bid == target
  | none => false

/-- The transformation as the claim states it, differing from
`injectFinalHover` only in the suppression test. -/
def injectFinalHoverClaimed (steps : List Step) : List Step :=
  match steps.getLast? with
  | none => steps
  | some lastStep =>
    match lastStep.actions.getLast? with
    | none => steps
    | some lastA =>
      if lastA.action_type = "click" then
        if prevIsClickSameTarget lastStep.actions lastA.bid then steps
        else
          steps.dropLast ++
            [{ lastStep with actions :=
                lastStep.actions.dropLast ++ [safetyFocus lastA.bid, lastA] }]
      else steps

/-- A plan ending in two consecutive clicks on different targets (claim
C1's counterexample input). -/
def c1exSteps : List Step :=
  [{ step_id := "s1", actions :=
      [{ action_type := "click", bid := some "1" },
        { action_type := "click", bid := some "42" }] }]

/-- C2: every fused element whose bounding box is absent or has zero
area, and which is neither the focused element nor interactive-tagged,
is dropped by the fusion pass: it never appears among the kept elements,
and (under the per-pass identifier-uniqueness invariant) no row of the
unified table carries its identifier. -/
theorem c2_zero_area_excluded (focusedBid : String) (e : Elem)
    (hbox : e.bbox = none ∨ ∃ x y w h, e.bbox = some (x, y, w, h) ∧ (w = 0 ∨ h = 0))
    (hfoc : e.bid ≠ focusedBid)
    (hint : elemIsInteractive e = false) :
    keepElem focusedBid e = false ∧
    (∀ elems : List Elem, e ∉ analyzeKept focusedBid elems) ∧
    (∀ elems : List Elem, (∀ x ∈ elems, x.bid = e.bid → x = e) →
      ∀ r ∈ analyzeTable focusedBid elems, r.BID ≠ e.bid) := by
  have hsize : hasPhysicalSize e.bbox = false := by
    rcases hbox with h0 | ⟨x, y, w, h, hb, hwh⟩
    · simp [hasPhysicalSize, h0]
    · rcases hwh with hw | hh
      · subst hw; simp [hasPhysicalSize, hb]
      · subst hh; simp [hasPhysicalSize, hb]
  have hkeep : keepElem focusedBid e = false := by
    simp [keepElem, hsize, hfoc]
  refine ⟨hkeep, ?_, ?_⟩
  · intro elems hmem
    have := List.of_mem_filter hmem
    rw [hkeep] at this
    exact Bool.false_ne_true this
  · intro elems huniq r hr hbid
    rcases List.mem_map.mp hr with ⟨x, hx, hxr⟩
    have hxelems : x ∈ elems := List.mem_of_mem_filter hx
    have hxkeep : keepElem focusedBid x = true := List.of_mem_filter hx
    have hxbid : x.bid = e.bid := by
      have : r.BID = x.bid := by rw [← hxr]; rfl
      rw [← this, hbid]
    have hxe : x = e := huniq x hxelems hxbid
    rw [hxe, hkeep] at hxkeep
    exact Bool.false_ne_true hxkeep

/-- C2 witness: a concrete zero-area, unfocused, non-interactive element
is rejected by the filter and absent from a concrete table. -/
theorem c2_zero_area_excluded_witness :
    keepElem "f9" c2exElem = false ∧
    (∀ elems : List Elem, c2exElem ∉ analyzeKept "f9" elems) ∧
    (∀ elems : List Elem, (∀ x ∈ elems, x.bid = c2exElem.bid → x = c2exElem) →
      ∀ r ∈ analyzeTable "f9" elems, r.BID ≠ c2exElem.bid) :=
  c2_zero_area_excluded "f9" c2exElem
    (Or.inr ⟨10, 20, 0, 15, rfl, Or.inl rfl⟩)
    (by decide)
    (by decide)

/-- The running best of the selection fold is drawn from the initial row
or the candidate list. -/
theorem foldlBest_mem (nk : String) (l : List Row) : ∀ init : Row,
    l.foldl (fun b r2 => if scoreRow nk b < scoreRow nk r2 then r2 else b) init ∈ init :: l := by
  induction l with
  | nil => intro init; simp
  | cons x xs ih =>
    intro init
    simp only [List.foldl_cons]
    rcases List.mem_cons.mp (ih (if scoreRow nk init < scoreRow nk x then x else init)) with h | h
    · rw [h]
      by_cases hc : scoreRow nk init < scoreRow nk x
      · simp [hc]
      · simp [hc]
    · simp [h]

/-- The running best of the selection fold dominates the initial row and
every candidate. -/
theorem foldlBest_le (nk : String) (l : List Row) : ∀ init : Row, ∀ r ∈ init :: l,
    scoreRow nk r ≤
      scoreRow nk (l.foldl (fun b r2 => if scoreRow nk b < scoreRow nk r2 then r2 else b) init) := by
  induction l with
  | nil =>
    intro init r hr
    simp only [List.mem_singleton] at hr
    subst hr
    exact le_refl _
  | cons x xs ih =>
    intro init r hr
    simp only [List.foldl_cons]
    have hinit : scoreRow nk init ≤
        scoreRow nk (if scoreRow nk init < scoreRow nk x then x else init) := by
      by_cases hc : scoreRow nk init < scoreRow nk x
      · simp only [if_pos hc]; exact le_of_lt hc
      · simp only [if_neg hc]; exact le_refl _
    have hx : scoreRow nk x ≤
        scoreRow nk (if scoreRow nk init < scoreRow nk x then x else init) := by
      by_cases hc : scoreRow nk init < scoreRow nk x
      · simp only [if_pos hc]; exact le_refl _
      · simp only [if_neg hc]; exact le_of_not_lt hc
    have hm := ih (if scoreRow nk init < scoreRow nk x then x else init)
    rcases List.mem_cons.mp hr with h | h
    · subst h
      exact le_trans hinit (hm _ (List.mem_cons_self _ _))
    · rcases List.mem_cons.mp h with h2 | h2
      · subst h2
        exact le_trans hx (hm _ (List.mem_cons_self _ _))
      · exact le_trans (le_refl _) (hm r (List.mem_cons_of_mem _ h2))

/-- The selected row is a member of the candidate list and maximal in
score. -/
theorem selectBest_spec (nk : String) (l : List Row) (b : Row)
    (h : selectBest nk l = some b) :
    b ∈ l ∧ ∀ r ∈ l, scoreRow nk r ≤ scoreRow nk b := by
  cases l with
  | nil => simp [selectBest] at h
  | cons x xs =>
    simp only [selectBest, Option.some.injEq] at h
    subst h
    exact ⟨foldlBest_mem nk xs x, foldlBest_le nk xs x⟩

/-- Selection returns nothing exactly on an empty candidate list. -/
theorem selectBest_eq_none (nk : String) (l : List Row) :
    selectBest nk l = none ↔ l = [] := by
  cases l with
  | nil => simp [selectBest]
  | cons x xs => simp [selectBest]

/-- Lemma: `bindFieldAux` on an empty candidate list yields "NOT_FOUND". -/
theorem bindFieldAux_none (nk : String) (ms : List Row)
    (hsel : selectBest nk ms = none) : bindFieldAux nk ms = IndexEntry.notFound := by
  unfold bindFieldAux
  rw [hsel]

/-- Lemma: `bindFieldAux` with a selected best row reduces to the threshold
test. -/
theorem bindFieldAux_some (nk : String) (ms : List Row) (best : Row)
    (hsel : selectBest nk ms = some best) :
    bindFieldAux nk ms =
      if 50 ≤ scoreRow nk best then
        IndexEntry.resolved
          { bid := best.BID
            role := best.Role
            label := if best.Label_L ≠ "" then best.Label_L else best.InnerT
            is_visible := decide (0 < best.Vis) }
      else IndexEntry.notFound := by
  unfold bindFieldAux
  rw [hsel]

/-- C8: field indexing scores candidates by the four signals of
`score_row` (+150 interactive role/tag, −20 passive label, +50 visible,
+20 exact primary-label match); a resolved binding always comes from a
maximal-scoring candidate with score ≥ 50, the field is marked
"NOT_FOUND" exactly when every candidate scores below 50, and in the
spec's Scenario A the field "Category" binds to the interactive select,
not the passive label. -/
theorem c8_field_indexing_scoring (fieldKey : String) (rawDf : List Row) :
    (∀ b, bindField fieldKey rawDf = IndexEntry.resolved b →
      ∃ best, best ∈ rawDf.filter (rowMatchesField (normKey fieldKey)) ∧
        b.bid = best.BID ∧ 50 ≤ scoreRow (normKey fieldKey) best ∧
        ∀ r ∈ rawDf.filter (rowMatchesField (normKey fieldKey)),
          scoreRow (normKey fieldKey) r ≤ scoreRow (normKey fieldKey) best) ∧
    (bindField fieldKey rawDf = IndexEntry.notFound ↔
      ∀ r ∈ rawDf.filter (rowMatchesField (normKey fieldKey)),
        scoreRow (normKey fieldKey) r < 50) ∧
    bindField "Category" [c8LabelRow, c8SelectRow] =
      IndexEntry.resolved
        { bid := "S1", role := "combobox", label := "Category", is_visible := true } := by
  refine ⟨?_, ?_, by decide⟩
  · intro b hb
    unfold bindField at hb
    cases hsel : selectBest (normKey fieldKey) (rawDf.filter (rowMatchesField (normKey fieldKey))) with
    | none =>
      rw [bindFieldAux_none _ _ hsel] at hb
      exact absurd hb (by simp)
    | some best =>
      rw [bindFieldAux_some _ _ _ hsel] at hb
      by_cases hth : 50 ≤ scoreRow (normKey fieldKey) best
      · rw [if_pos hth] at hb
        rcases selectBest_spec _ _ _ hsel with ⟨hmem, hmax⟩
        refine ⟨best, hmem, ?_, hth, hmax⟩
        cases hb
        rfl
      · rw [if_neg hth] at hb
        exact absurd hb (by simp)
  · unfold bindField
    cases hsel : selectBest (normKey fieldKey) (rawDf.filter (rowMatchesField (normKey fieldKey))) with
    | none =>
      have hempty := (selectBest_eq_none _ _).mp hsel
      rw [bindFieldAux_none _ _ hsel, hempty]
      simp
    | some best =>
      rw [bindFieldAux_some _ _ _ hsel]
      rcases selectBest_spec _ _ _ hsel with ⟨hmem, hmax⟩
      by_cases hth : 50 ≤ scoreRow (normKey fieldKey) best
      · rw [if_pos hth]
        constructor
        · intro hcontra
          exact absurd hcontra (by simp)
        · intro hall
          exact absurd (hall best hmem) (not_lt.mpr hth)
      · rw [if_neg hth]
        constructor
        · intro _ r hr
          exact lt_of_le_of_lt (hmax r hr) (lt_of_not_le hth)
        · intro _
          rfl

/-- C8 witness: the claim theorem applied at Scenario A's concrete
two-row table yields the select binding. -/
theorem c8_field_indexing_scoring_witness :
    bindField "Category" [c8LabelRow, c8SelectRow] =
      IndexEntry.resolved
        { bid := "S1", role := "combobox", label := "Category", is_visible := true } :=
  (c8_field_indexing_scoring "Category" [c8LabelRow, c8SelectRow]).2.2

/-- Lookup in the merged index: a key resolves to the oracle's value
when offered, to its original entry otherwise, and to nothing when it
was not in the original index. -/
theorem mergeIndex_lookup (idx : BidIndex) (entries : List (String × IndexEntry)) (k : String) :
    (mergeIndex idx entries).lookup k =
      match idx.lookup k with
      | none => none
      | some v => some ((entries.lookup k).getD v) := by
  induction idx with
  | nil => rfl
  | cons kv rest ih =>
    rcases kv with ⟨k1, v1⟩
    by_cases hk : k = k1
    · subst hk
      cases hent : entries.lookup k with
      | none => simp [mergeIndex, List.lookup, hent]
      | some w => simp [mergeIndex, List.lookup, hent]
    · have hbeq : (k == k1) = false := by
        exact beq_false_of_ne hk
      cases hent : entries.lookup k1 with
      | none =>
        simpa [mergeIndex, List.lookup, hent, hbeq] using ih
      | some w =>
        simpa [mergeIndex, List.lookup, hent, hbeq] using ih

/-- C7: the remediation merge agrees with the oracle's correction map on
keys present in both, keeps the original entry for keys the map does not
mention, never invents a key, and leaves the index unchanged on a
malformed (non-dict) response. -/
theorem c7_remediation_partial_merge (idx : BidIndex)
    (entries : List (String × IndexEntry)) (k : String) :
    refineMerge idx OracleResp.malformed = idx ∧
    (idx.lookup k = none → (refineMerge idx (OracleResp.dict entries)).lookup k = none) ∧
    (∀ v, idx.lookup k = some v → entries.lookup k = none →
      (refineMerge idx (OracleResp.dict entries)).lookup k = some v) ∧
    (∀ v w, idx.lookup k = some v → entries.lookup k = some w →
      (refineMerge idx (OracleResp.dict entries)).lookup k = some w) := by
  refine ⟨rfl, ?_, ?_, ?_⟩
  · intro hnone
    simp only [refineMerge]
    by_cases hE : entries = []
    · rw [if_pos hE, hnone]
    · rw [if_neg hE, mergeIndex_lookup, hnone]
  · intro v hv hent
    simp only [refineMerge]
    by_cases hE : entries = []
    · rw [if_pos hE, hv]
    · rw [if_neg hE, mergeIndex_lookup, hv]
      simp [hent]
  · intro v w hv hent
    simp only [refineMerge]
    by_cases hE : entries = []
    · subst hE
      simp [List.lookup] at hent
    · rw [if_neg hE, mergeIndex_lookup, hv]
      simp [hent]

/-- C7 witness: the partial-merge theorem applied to a concrete index
and correction map — the unresolved key takes the oracle's binding, the
untouched resolved key survives, and the oracle-invented key is
ignored. -/
theorem c7_remediation_partial_merge_witness :
    (refineMerge [("A", IndexEntry.notFound), ("B", IndexEntry.resolved c10exBinding)]
        (OracleResp.dict [("A", IndexEntry.resolved c10exBinding), ("Z", IndexEntry.notFound)])).lookup "A" =
      some (IndexEntry.resolved c10exBinding) ∧
    (refineMerge [("A", IndexEntry.notFound), ("B", IndexEntry.resolved c10exBinding)]
        (OracleResp.dict [("A", IndexEntry.resolved c10exBinding), ("Z", IndexEntry.notFound)])).lookup "B" =
      some (IndexEntry.resolved c10exBinding) ∧
    (refineMerge [("A", IndexEntry.notFound), ("B", IndexEntry.resolved c10exBinding)]
        (OracleResp.dict [("A", IndexEntry.resolved c10exBinding), ("Z", IndexEntry.notFound)])).lookup "Z" =
      none := by
  refine ⟨?_, ?_, ?_⟩
  · exact (c7_remediation_partial_merge _ _ "A").2.2.2 IndexEntry.notFound
      (IndexEntry.resolved c10exBinding) (by decide) (by decide)
  · exact (c7_remediation_partial_merge _ _ "B").2.2.1 (IndexEntry.resolved c10exBinding)
      (by decide) (by decide)
  · exact (c7_remediation_partial_merge _ _ "Z").2.1 (by decide)

/-- Every member of a separator-joined list is an infix of the join. -/
theorem infix_joinSep (sep : List Char) (L : List (List Char)) (x : List Char)
    (hx : x ∈ L) : x <:+: joinSep sep L := by
  induction L with
  | nil => simp at hx
  | cons a rest ih =>
    cases rest with
    | nil =>
      simp only [List.mem_singleton] at hx
      subst hx
      exact ⟨[], [], by simp [joinSep]⟩
    | cons b bs =>
      rcases List.mem_cons.mp hx with h | h
      · subst h
        exact ⟨[], sep ++ joinSep sep (b :: bs), by simp [joinSep]⟩
      · rcases ih h with ⟨s, t, hst⟩
        exact ⟨(a ++ sep) ++ s, t, by simp [joinSep, ← hst]⟩

/-- The serialization of every index member is an infix of the full
`json.dumps` output. -/
theorem jsonPair_infix_dumps (idx : BidIndex) (kv : String × IndexEntry)
    (hkv : kv ∈ idx) : jsonPair kv <:+: jsonDumpsIndex idx := by
  have h1 : jsonPair kv <:+: joinSep commaSp (idx.map jsonPair) :=
    infix_joinSep _ _ _ (List.mem_map_of_mem jsonPair hkv)
  have h2 : joinSep commaSp (idx.map jsonPair) <:+: jsonDumpsIndex idx :=
    ⟨[lbrace], [rbrace], by simp [jsonDumpsIndex]⟩
  exact h1.trans h2

/-- C10: when the serialized index does not contain the token
"NOT_FOUND" the remediation step returns the index unchanged and issues
no oracle request; conversely an oracle request is issued whenever the
serialized form of any entry contains the token — even when that entry
is a resolved binding whose text merely mentions it. -/
theorem c10_notfound_token_gate (idx : BidIndex) (resp : OracleResp) :
    (¬ (notFoundChars <:+: jsonDumpsIndex idx) →
      refineBidIndexWithLLM idx resp = (idx, false)) ∧
    (∀ kv, kv ∈ idx → notFoundChars <:+: jsonPair kv →
      refineBidIndexWithLLM idx resp = (refineMerge idx resp, true)) := by
  constructor
  · intro hno
    have hfalse : hasNotFoundToken idx = false := by
      unfold hasNotFoundToken
      exact decide_eq_false hno
    simp [refineBidIndexWithLLM, hfalse]
  · intro kv hkv hentry
    have hfull : notFoundChars <:+: jsonDumpsIndex idx :=
      hentry.trans (jsonPair_infix_dumps idx kv hkv)
    have htrue : hasNotFoundToken idx = true := by
      unfold hasNotFoundToken
      exact decide_eq_true hfull
    simp [refineBidIndexWithLLM, htrue]

/-- C10 witness: a one-entry index whose sole entry is a resolved
binding with "NOT_FOUND" inside its label still triggers the oracle
request, and a clean one-entry index is passed through untouched with no
request. -/
theorem c10_notfound_token_gate_witness :
    refineBidIndexWithLLM [("Stock", IndexEntry.resolved c10exBinding)] OracleResp.malformed =
      (refineMerge [("Stock", IndexEntry.resolved c10exBinding)] OracleResp.malformed, true) ∧
    refineBidIndexWithLLM
        [("Stock", IndexEntry.resolved { bid := "17", role := "textbox", label := "Stock", is_visible := true })]
        OracleResp.malformed =
      ([("Stock", IndexEntry.resolved { bid := "17", role := "textbox", label := "Stock", is_visible := true })],
        false) := by
  constructor
  · exact (c10_notfound_token_gate _ OracleResp.malformed).2
      ("Stock", IndexEntry.resolved c10exBinding) (by decide) (by decide)
  · exact (c10_notfound_token_gate _ OracleResp.malformed).1 (by decide)

/-- Every error of the label-role audit is a label-role warning. -/
theorem roleAudit_shape (bidIndex : BidIndex) (rawDf : List Row)
    (stepId : String) (a : ActionDesc) :
    ∀ e ∈ roleAudit bidIndex rawDf stepId a,
      ∃ sid b sg, e = VErr.labelRoleWarning sid b sg := by
  intro e he
  unfold roleAudit at he
  split at he
  · split at he
    · simp only [List.mem_singleton] at he
      exact ⟨_, _, _, he⟩
    · simp at he
  · simp at he

/-- Every error of the redundant-click audit is a redundant-click
flag. -/
theorem clickAudit_shape (fieldsSpec : List (String × String)) (completed : List String)
    (stepId : String) (a : ActionDesc) :
    ∀ e ∈ clickAudit fieldsSpec completed stepId a,
      ∃ sid l, e = VErr.redundantClick sid l := by
  intro e he
  unfold clickAudit at he
  split at he
  · split at he
    · split at he
      · simp only [List.mem_singleton] at he
        exact ⟨_, _, he⟩
      · simp at he
    · simp at he
  · simp at he

/-- The unknown-action error appears in one action's audit exactly when
the action's type is outside `VALID_ACTIONS` (and then with that step id
and type). -/
theorem unknownAction_mem_auditAction (bidIndex : BidIndex) (rawDf : List Row)
    (fieldsSpec : List (String × String)) (completed : List String)
    (stepId : String) (a : ActionDesc) (sid ty : String) :
    VErr.unknownAction sid ty ∈ auditAction bidIndex rawDf fieldsSpec completed stepId a ↔
      a.action_type ∉ VALID_ACTIONS ∧ sid = stepId ∧ ty = a.action_type := by
  constructor
  · intro he
    unfold auditAction at he
    by_cases h0 : a.action_type ∉ VALID_ACTIONS
    · rw [if_pos h0] at he
      simp only [List.mem_singleton] at he
      cases he
      exact ⟨h0, rfl, rfl⟩
    · rw [if_neg h0] at he
      exfalso
      split at he
      · split at he
        · simp at he
        · simp at he
      · split at he
        · simp at he
        · split at he
          · split at he
            · simp at he
            · simp at he
          · simp only [List.mem_append] at he
            rcases he with he | he
            · rcases roleAudit_shape _ _ _ _ _ he with ⟨_, _, _, h⟩
              exact VErr.noConfusion h
            · rcases clickAudit_shape _ _ _ _ _ he with ⟨_, _, h⟩
              exact VErr.noConfusion h
  · rintro ⟨h0, rfl, rfl⟩
    unfold auditAction
    rw [if_pos h0]
    simp

/-- C3 counterexample: the claim's recognized vocabulary contains
"dblclick", yet validating a one-step plan whose single action is a
`dblclick` produces an unrecognized-action error. -/
theorem c3_counterexample_dblclick :
    "dblclick" ∈ claimedRecognizedActions ∧
    validatePlan c3exPlan [] [] [] = [VErr.unknownAction "step_1" "dblclick"] := by decide

/-- C3 (amended): plan validation emits an unrecognized-action error for
an action exactly when its type is outside the recognized set
{fill, click, focus, select_option, scroll, hover, extractLLM,
send_msg_to_user} — the source set has no "dblclick" and names the
extraction and notify actions `extractLLM` and `send_msg_to_user` — and
a step containing a single action of unrecognized type produces exactly
that one error for the step, with no further checks applied to the
action. -/
theorem c3_unrecognized_action_gate (bidIndex : BidIndex) (rawDf : List Row)
    (fieldsSpec : List (String × String)) (completed : List String)
    (stepId : String) (a : ActionDesc) :
    (a.action_type ∉ VALID_ACTIONS →
      auditAction bidIndex rawDf fieldsSpec completed stepId a =
        [VErr.unknownAction stepId a.action_type]) ∧
    (∀ sid ty,
      VErr.unknownAction sid ty ∈ auditAction bidIndex rawDf fieldsSpec completed stepId a ↔
        a.action_type ∉ VALID_ACTIONS ∧ sid = stepId ∧ ty = a.action_type) ∧
    (∀ s : Step, s.actions = [a] → a.action_type ∉ VALID_ACTIONS →
      auditStep bidIndex rawDf fieldsSpec completed s =
        [VErr.unknownAction s.step_id a.action_type]) := by
  refine ⟨?_, ?_, ?_⟩
  · intro h0
    unfold auditAction
    rw [if_pos h0]
  · intro sid ty
    exact unknownAction_mem_auditAction bidIndex rawDf fieldsSpec completed stepId a sid ty
  · intro s hs h0
    unfold auditStep
    rw [hs]
    simp only [List.flatMap_cons, List.flatMap_nil, List.append_nil]
    unfold auditAction
    rw [if_pos h0]

/-- C3 witness: the amended gate applied to a concrete "teleport" action
inside a one-action step. -/
theorem c3_unrecognized_action_gate_witness :
    auditStep [] [] [] [] { step_id := "s9", actions := [{ action_type := "teleport" }] } =
      [VErr.unknownAction "s9" "teleport"] :=
  (c3_unrecognized_action_gate [] [] [] [] "s9" { action_type := "teleport" }).2.2
    { step_id := "s9", actions := [{ action_type := "teleport" }] } rfl (by decide)

/-- The per-action audit never produces the missing-fields report. -/
theorem missingFieldsErr_not_mem_audit (bidIndex : BidIndex) (rawDf : List Row)
    (fieldsSpec : List (String × String)) (completed : List String)
    (stepId : String) (a : ActionDesc) (l : List String) :
    VErr.missingFieldsErr l ∉ auditAction bidIndex rawDf fieldsSpec completed stepId a := by
  intro he
  unfold auditAction at he
  split at he
  · simp at he
  · split at he
    · split at he
      · simp at he
      · simp at he
    · split at he
      · simp at he
      · split at he
        · split at he
          · simp at he
          · simp at he
        · simp only [List.mem_append] at he
          rcases he with he | he
          · rcases roleAudit_shape _ _ _ _ _ he with ⟨_, _, _, h⟩
            exact VErr.noConfusion h
          · rcases clickAudit_shape _ _ _ _ _ he with ⟨_, _, h⟩
            exact VErr.noConfusion h

/-- C5 counterexample: with one unsatisfied, resolved, unplanned field,
the truly-missing set is non-empty, yet a plan containing a
`send_msg_to_user` action passes validation with no missing-fields
error at all. -/
theorem c5_counterexample_msg_guard :
    trulyMissing c5Spec c5Index [c5Row] c5PlanMsg = ["A"] ∧
    validatePlan c5PlanMsg c5Spec c5Index [c5Row] = [] := by decide

/-- C5 (amended): the field-completion audit reports as missing exactly
the specified fields neither satisfied by the live state nor referenced
by a planned action's logic reference, excluding those whose index entry
is not a resolved binding; when the audit reaches the label-role branch
of an action whose logic reference is indexed "NOT_FOUND", `validate_plan`
raises (the line-570 AttributeError) and emits nothing; in every
completed validation the missing-fields error appears exactly when the
truly-missing set is non-empty AND the plan contains no
`send_msg_to_user` or `extractLLM` action. -/
theorem c5_missing_fields_report (steps : List Step)
    (fieldsSpec : List (String × String)) (bidIndex : BidIndex) (rawDf : List Row) :
    (∀ f, f ∈ missingFields fieldsSpec bidIndex rawDf steps ↔
      f ∈ fieldsSpec.map Prod.fst ∧
      f ∉ completedLogicRefs fieldsSpec bidIndex rawDf ∧
      f ∉ plannedLogicRefs steps) ∧
    (∀ f, f ∈ trulyMissing fieldsSpec bidIndex rawDf steps ↔
      f ∈ missingFields fieldsSpec bidIndex rawDf steps ∧
      ∃ b, bidIndex.lookup f = some (IndexEntry.resolved b)) ∧
    (validatePlanCrashes steps bidIndex rawDf = true →
      validatePlanE steps fieldsSpec bidIndex rawDf = none) ∧
    (∀ errs, validatePlanE steps fieldsSpec bidIndex rawDf = some errs →
      (VErr.missingFieldsErr (trulyMissing fieldsSpec bidIndex rawDf steps) ∈ errs ↔
        trulyMissing fieldsSpec bidIndex rawDf steps ≠ [] ∧
        hasMsgOrExtract steps = false)) := by
  refine ⟨?_, ?_, ?_, ?_⟩
  · intro f
    simp only [missingFields, List.mem_filter, Bool.and_eq_true, decide_eq_true_eq]
  · intro f
    constructor
    · intro hm
      rcases List.mem_filter.mp hm with ⟨hmem, hp⟩
      refine ⟨hmem, ?_⟩
      revert hp
      cases hl : bidIndex.lookup f with
      | none => intro hp; simp at hp
      | some e =>
        cases e with
        | notFound => intro hp; simp at hp
        | resolved b => intro hp; exact ⟨b, rfl⟩
    · rintro ⟨hmem, b, hl⟩
      refine List.mem_filter.mpr ⟨hmem, ?_⟩
      simp [hl]
  · intro hc
    simp [validatePlanE, hc]
  · intro errs hE
    unfold validatePlanE at hE
    by_cases hc : validatePlanCrashes steps bidIndex rawDf = true
    · rw [if_pos hc] at hE
      exact absurd hE (by simp)
    · rw [if_neg hc] at hE
      injection hE with hE
      subst hE
      constructor
      · intro he
        simp only [validatePlan, List.mem_append] at he
        rcases he with he | he
        · by_cases hg : trulyMissing fieldsSpec bidIndex rawDf steps ≠ [] ∧
              hasMsgOrExtract steps = false
          · exact hg
          · rw [if_neg hg] at he
            simp at he
        · exfalso
          rcases List.mem_flatMap.mp he with ⟨s, hs, hes⟩
          unfold auditStep at hes
          rcases List.mem_flatMap.mp hes with ⟨a, ha, hea⟩
          exact missingFieldsErr_not_mem_audit _ _ _ _ _ a _ hea
      · rintro ⟨hne, hmsg⟩
        simp only [validatePlan, List.mem_append]
        left
        rw [if_pos ⟨hne, hmsg⟩]
        simp

/-- C5 witness: the amended report applied to an empty plan against the
concrete one-field specification — the missing-fields error is
emitted. -/
theorem c5_missing_fields_report_witness :
    VErr.missingFieldsErr (trulyMissing c5Spec c5Index [] []) ∈
      validatePlan [] c5Spec c5Index [] :=
  ((c5_missing_fields_report [] c5Spec c5Index []).2.2.2
      (validatePlan [] c5Spec c5Index []) (by decide)).mpr ⟨by decide, by decide⟩

/-- C6: for a specified field with an empty (after trimming) target
value and a resolved index entry backed by a live row, the field is
marked satisfied exactly when the row's trimmed value is empty or a
recognized none/null placeholder; and the spec's Scenario C
({A: "X", B: ""} against live A="X", B="") reports zero missing fields
and validates cleanly. -/
theorem c6_empty_target_satisfaction (bidIndex : BidIndex) (rawDf : List Row)
    (fieldLabel target : String) (e : Binding) (cand : Row)
    (hlookup : bidIndex.lookup fieldLabel = some (IndexEntry.resolved e))
    (hfind : findRowByBid rawDf e.bid = some cand)
    (htarget : pyStrip target = "") :
    (fieldCompleted bidIndex rawDf fieldLabel target = true ↔
      pyStrip cand.Value = "" ∨ pyLower (pyStrip cand.Value) ∈ nonePlaceholders) ∧
    missingFields c6Spec c6Index c6Rows [] = [] ∧
    validatePlan [] c6Spec c6Index c6Rows = [] := by
  refine ⟨?_, by decide, by decide⟩
  simp only [fieldCompleted, hlookup, hfind]
  rw [if_pos htarget]
  simp

/-- C6 witness: the satisfaction criterion applied to Scenario C's field
B (empty target, empty live value). -/
theorem c6_empty_target_satisfaction_witness :
    fieldCompleted c6Index c6Rows "B" "" = true :=
  (c6_empty_target_satisfaction c6Index c6Rows "B" ""
      { bid := "2", role := "textbox", label := "B", is_visible := true }
      { BID := "2", Role := "textbox", Tag := "INPUT", Label_L := "B", Label_A := "",
        Label_AX := "", Label_P := "", InnerT := "", Value := "", Status := "",
        Class := "", Vis := 1 }
      (by decide) (by decide) (by decide)).1.mpr (Or.inl (by decide))

/-- Lemma: a crash-free validation completes with the full error
list. -/
theorem validatePlanE_no_crash (steps : List Step) (fieldsSpec : List (String × String))
    (bidIndex : BidIndex) (rawDf : List Row)
    (h : validatePlanCrashes steps bidIndex rawDf = false) :
    validatePlanE steps fieldsSpec bidIndex rawDf =
      some (validatePlan steps fieldsSpec bidIndex rawDf) := by
  unfold validatePlanE
  rw [h]
  simp

/-- Lemma: one crash-free iteration of the repair loop reduces to the
accept/break/refine decision on the completed error list. -/
theorem repairLoopAux_step (fieldsSpec : List (String × String)) (bidIndex : BidIndex)
    (rawDf : List Row) (resp : Nat → GenResp) (maxRetries : Nat)
    (fuel i : Nat) (steps : List Step) (thought : String)
    (h : validatePlanCrashes steps bidIndex rawDf = false) :
    repairLoopAux fieldsSpec bidIndex rawDf resp maxRetries (fuel + 1) i steps thought =
      (if validatePlan steps fieldsSpec bidIndex rawDf = [] then
        some (RepairResult.accepted steps thought (i + 1))
      else if i = maxRetries - 1 then
        some (RepairResult.exhausted steps thought
          (validatePlan steps fieldsSpec bidIndex rawDf))
      else
        match resp (i + 1) with
        | GenResp.fail e => some (RepairResult.genError e)
        | GenResp.ok s t =>
          repairLoopAux fieldsSpec bidIndex rawDf resp maxRetries fuel (i + 1) s t) := by
  conv_lhs => unfold repairLoopAux
  rw [validatePlanE_no_crash _ _ _ _ h]

/-- When every remaining attempt validates crash-free with errors and
the oracle keeps answering, the loop runs to its last iteration and
returns that attempt's plan with its validation errors. -/
theorem repairLoopAux_exhaust (fieldsSpec : List (String × String)) (bidIndex : BidIndex)
    (rawDf : List Row) (S : Nat → List Step) (T : Nat → String) (maxRetries : Nat) :
    ∀ fuel i, i + fuel = maxRetries → fuel ≠ 0 →
      (∀ n, i ≤ n → n < maxRetries → validatePlanCrashes (S n) bidIndex rawDf = false) →
      (∀ n, i ≤ n → n < maxRetries → validatePlan (S n) fieldsSpec bidIndex rawDf ≠ []) →
      repairLoopAux fieldsSpec bidIndex rawDf (fun n => GenResp.ok (S n) (T n)) maxRetries
          fuel i (S i) (T i) =
        some (RepairResult.exhausted (S (maxRetries - 1)) (T (maxRetries - 1))
          (validatePlan (S (maxRetries - 1)) fieldsSpec bidIndex rawDf)) := by
  intro fuel
  induction fuel with
  | zero =>
    intro i _ h0 _ _
    exact absurd rfl h0
  | succ f ih =>
    intro i hsum _ hnc hval
    have hne : validatePlan (S i) fieldsSpec bidIndex rawDf ≠ [] :=
      hval i (le_refl i) (by omega)
    have hci : validatePlanCrashes (S i) bidIndex rawDf = false :=
      hnc i (le_refl i) (by omega)
    rw [repairLoopAux_step _ _ _ _ _ _ _ _ _ hci]
    rw [if_neg hne]
    by_cases hlast : i = maxRetries - 1
    · rw [if_pos hlast, hlast]
    · rw [if_neg hlast]
      have hf : f ≠ 0 := by omega
      exact ih (i + 1) (by omega) hf (fun n hn1 hn2 => hnc n (by omega) hn2)
        (fun n hn1 hn2 => hval n (by omega) hn2)

/-- When the first clean, crash-free validation happens at attempt `k`
within the budget, the loop accepts that plan with attempt count
`k + 1`. -/
theorem repairLoopAux_accept (fieldsSpec : List (String × String)) (bidIndex : BidIndex)
    (rawDf : List Row) (S : Nat → List Step) (T : Nat → String) (maxRetries : Nat) :
    ∀ fuel i k, i + fuel = maxRetries → i ≤ k → k < maxRetries →
      (∀ n, i ≤ n → n ≤ k → validatePlanCrashes (S n) bidIndex rawDf = false) →
      (∀ n, i ≤ n → n < k → validatePlan (S n) fieldsSpec bidIndex rawDf ≠ []) →
      validatePlan (S k) fieldsSpec bidIndex rawDf = [] →
      repairLoopAux fieldsSpec bidIndex rawDf (fun n => GenResp.ok (S n) (T n)) maxRetries
          fuel i (S i) (T i) =
        some (RepairResult.accepted (S k) (T k) (k + 1)) := by
  intro fuel
  induction fuel with
  | zero =>
    intro i k hsum hik hk _ _ _
    omega
  | succ f ih =>
    intro i k hsum hik hk hnc hval hok
    have hci : validatePlanCrashes (S i) bidIndex rawDf = false :=
      hnc i (le_refl i) hik
    rw [repairLoopAux_step _ _ _ _ _ _ _ _ _ hci]
    by_cases hieq : i = k
    · subst hieq
      rw [if_pos hok]
    · have hne : validatePlan (S i) fieldsSpec bidIndex rawDf ≠ [] :=
        hval i (le_refl i) (by omega)
      rw [if_neg hne]
      have hlast : i ≠ maxRetries - 1 := by omega
      rw [if_neg hlast]
      exact ih (i + 1) k (by omega) (by omega) hk
        (fun n hn1 hn2 => hnc n (by omega) hn2)
        (fun n hn1 hn2 => hval n (by omega) hn2) hok

/-- C9 counterexample: the oracle never fails and keeps proposing the
same plan, whose audit hits the line-570 AttributeError (a click on a
label row whose logic reference is indexed "NOT_FOUND"); `validate_plan`
raises, `run_repair_loop` propagates, and the flagged plan is discarded
— no steps and no error list are ever returned, against the claim's
"the flagged plan is returned, never discarded". -/
theorem c9_counterexample_crash_discard :
    validatePlanCrashes c9CrashPlan c9CrashIndex [c9CrashRow] = true ∧
    validatePlanE c9CrashPlan [] c9CrashIndex [c9CrashRow] = none ∧
    runRepairLoop [] c9CrashIndex [c9CrashRow]
      (fun n => GenResp.ok c9CrashPlan "t") 3 = none := by decide

/-- C9 (amended): with a positive retry budget, an oracle that always
returns a plan, and every attempt's validation completing without the
line-570 AttributeError (no audited label-row action carries a
"NOT_FOUND"-indexed logic reference — otherwise the exception propagates
out of `run_repair_loop` and nothing is returned), exhausting the budget
returns the final attempt's steps together with that attempt's
outstanding validation errors, while a first clean validation at attempt
`k` returns an accepted result carrying the attempt count `k + 1` (and,
by shape, no error list). -/
theorem c9_repair_loop_results (fieldsSpec : List (String × String)) (bidIndex : BidIndex)
    (rawDf : List Row) (S : Nat → List Step) (T : Nat → String) (maxRetries : Nat)
    (hmr : 1 ≤ maxRetries)
    (hnocrash : ∀ n, n < maxRetries → validatePlanCrashes (S n) bidIndex rawDf = false) :
    ((∀ n, n < maxRetries → validatePlan (S n) fieldsSpec bidIndex rawDf ≠ []) →
      runRepairLoop fieldsSpec bidIndex rawDf (fun n => GenResp.ok (S n) (T n)) maxRetries =
        some (RepairResult.exhausted (S (maxRetries - 1)) (T (maxRetries - 1))
          (validatePlan (S (maxRetries - 1)) fieldsSpec bidIndex rawDf))) ∧
    (∀ k, k < maxRetries →
      (∀ n, n < k → validatePlan (S n) fieldsSpec bidIndex rawDf ≠ []) →
      validatePlan (S k) fieldsSpec bidIndex rawDf = [] →
      runRepairLoop fieldsSpec bidIndex rawDf (fun n => GenResp.ok (S n) (T n)) maxRetries =
        some (RepairResult.accepted (S k) (T k) (k + 1))) := by
  constructor
  · intro hall
    unfold runRepairLoop
    exact repairLoopAux_exhaust fieldsSpec bidIndex rawDf S T maxRetries maxRetries 0
      (by omega) (by omega) (fun n _ hn2 => hnocrash n hn2) (fun n _ hn2 => hall n hn2)
  · intro k hk hbefore hok
    unfold runRepairLoop
    exact repairLoopAux_accept fieldsSpec bidIndex rawDf S T maxRetries maxRetries 0 k
      (by omega) (by omega) hk (fun n _ hn2 => hnocrash n (by omega))
      (fun n _ hn2 => hbefore n hn2) hok

/-- C9 witness: with the default budget of 3 and an oracle that keeps
producing the same invalid (but crash-free) one-action plan, the loop
returns that plan with its outstanding unknown-action error. -/
theorem c9_repair_loop_results_witness :
    runRepairLoop [] [] [] (fun n => GenResp.ok c3exPlan "t") 3 =
      some (RepairResult.exhausted c3exPlan "t" (validatePlan c3exPlan [] [] [])) :=
  (c9_repair_loop_results [] [] [] (fun _ => c3exPlan) (fun _ => "t") 3 (by decide)
      (fun n _ => by show validatePlanCrashes c3exPlan [] [] = false; decide)).1
    (fun n _ => by show validatePlan c3exPlan [] [] [] ≠ []; decide)

/-- C4: a fill action whose value — after placeholder substitution and
trimming — reads "true" or "false" case-insensitively compiles to a
click on the target identifier; any other fill value compiles to a fill
carrying the substituted but untrimmed value; the spec's Scenario B
(fill with literal value "false") compiles to a click. -/
theorem c4_boolean_fill_compiles_to_click (a : ActionDesc) (lastExtracted : Option String)
    (hfill : a.action_type = "fill") :
    (pyLower (pyStrip (bindValue lastExtracted (a.value.getD ""))) ∈ ["true", "false"] →
      buildActionCode a lastExtracted = Cmd.clickCmd a.bid) ∧
    (pyLower (pyStrip (bindValue lastExtracted (a.value.getD ""))) ∉ ["true", "false"] →
      buildActionCode a lastExtracted =
        Cmd.fillCmd a.bid (bindValue lastExtracted (a.value.getD ""))) ∧
    buildActionCode { action_type := "fill", bid := some "9", value := some "false" } none =
      Cmd.clickCmd (some "9") := by
  have h1 : ¬ a.action_type = "extractLLM" := by rw [hfill]; decide
  have h2 : ¬ a.action_type = "select_option" := by rw [hfill]; decide
  have h3 : ¬ a.action_type = "send_msg_to_user" := by rw [hfill]; decide
  refine ⟨?_, ?_, by decide⟩
  · intro hmem
    unfold buildActionCode
    rw [if_neg h1, if_neg h2, if_neg h3, if_pos hfill, if_pos hmem]
  · intro hmem
    unfold buildActionCode
    rw [if_neg h1, if_neg h2, if_neg h3, if_pos hfill, if_neg hmem]

/-- C4 witness: the compilation rule applied to Scenario B's concrete
fill action. -/
theorem c4_boolean_fill_compiles_to_click_witness :
    buildActionCode { action_type := "fill", bid := some "9", value := some "false" } none =
      Cmd.clickCmd (some "9") :=
  (c4_boolean_fill_compiles_to_click
    { action_type := "fill", bid := some "9", value := some "false" } none rfl).2.2

/-- C1 counterexample: on a final step ending click(1); click(42), the
source inserts nothing (the preceding click suppresses the insertion
regardless of target), while the claim's same-target reading demands a
focus on 42 before the final click — the two transformations disagree
here. -/
theorem c1_counterexample_cross_target_click :
    injectFinalHover c1exSteps = c1exSteps ∧
    injectFinalHoverClaimed c1exSteps =
      [{ step_id := "s1", actions :=
          [{ action_type := "click", bid := some "1" },
            safetyFocus (some "42"),
            { action_type := "click", bid := some "42" }] }] ∧
    injectFinalHover c1exSteps ≠ injectFinalHoverClaimed c1exSteps := by decide

/-- C1 (amended): for a non-empty plan whose final step's last action is
a click, a synthetic focus on that click's target is inserted
immediately before the click unless the click is immediately preceded by
another click — on any target, not only the same one; plans whose final
action is not a click, and final steps with no actions, are returned
unchanged. -/
theorem c1_inject_final_hover (pre : List Step) (sid : String)
    (acts : List ActionDesc) (lastA : ActionDesc) :
    injectFinalHover [] = [] ∧
    (∀ p : ActionDesc, lastA.action_type = "click" → p.action_type = "click" →
      injectFinalHover (pre ++ [{ step_id := sid, actions := acts ++ [p, lastA] }]) =
        pre ++ [{ step_id := sid, actions := acts ++ [p, lastA] }]) ∧
    (lastA.action_type = "click" →
      (∀ p, acts.getLast? = some p → p.action_type ≠ "click") →
      injectFinalHover (pre ++ [{ step_id := sid, actions := acts ++ [lastA] }]) =
        pre ++ [{ step_id := sid, actions := acts ++ [safetyFocus lastA.bid, lastA] }]) ∧
    (lastA.action_type ≠ "click" →
      injectFinalHover (pre ++ [{ step_id := sid, actions := acts ++ [lastA] }]) =
        pre ++ [{ step_id := sid, actions := acts ++ [lastA] }]) ∧
    injectFinalHover (pre ++ [{ step_id := sid, actions := [] }]) =
      pre ++ [{ step_id := sid, actions := [] }] := by
  refine ⟨rfl, ?_, ?_, ?_, ?_⟩
  · intro p hlast hp
    have hsplit : acts ++ [p, lastA] = (acts ++ [p]) ++ [lastA] := by simp
    have hprev : prevIsClick (acts ++ [p, lastA]) = true := by
      rw [hsplit]
      unfold prevIsClick
      rw [List.dropLast_concat, List.getLast?_concat]
      simp [hp]
    rw [hsplit]
    simp only [injectFinalHover, List.getLast?_concat]
    rw [hlast]
    simp [hprev]
  · intro hlast hnoprev
    have hprev : prevIsClick (acts ++ [lastA]) = false := by
      unfold prevIsClick
      rw [List.dropLast_concat]
      cases hacts : acts.getLast? with
      | none => rfl
      | some p =>
        have hne := hnoprev p hacts
        simp [hne]
    simp only [injectFinalHover, List.getLast?_concat]
    rw [hlast]
    simp [hprev, List.dropLast_concat]
  · intro hlast
    simp only [injectFinalHover, List.getLast?_concat]
    rw [if_neg hlast]
  · simp only [injectFinalHover, List.getLast?_concat, List.getLast?_nil]

/-- C1 witness: the amended transformation applied to Scenario D's plan
— a lone final click on bid 42 with nothing before it gets a synthetic
focus on 42 inserted immediately before. -/
theorem c1_inject_final_hover_witness :
    injectFinalHover
        [{ step_id := "s1", actions := [{ action_type := "click", bid := some "42" }] }] =
      [{ step_id := "s1", actions :=
          [safetyFocus (some "42"), { action_type := "click", bid := some "42" }] }] :=
  (c1_inject_final_hover [] "s1" [] { action_type := "click", bid := some "42" }).2.2.1 rfl
    (fun p hp => absurd hp (by simp))
